import Mathlib

/-!
# Verification of the DNS Threat Simulator profile engine

This file gives a shallow embedding, in Lean 4, of the algorithmic core of
`dns_simulator.py` (the per-client profile derivation, the predefined preset
table, and the DGA domain synthesizer), and proves or refutes the specified
properties about it.

Conventions of the embedding:
* A client identifier is the list of bytes of the identifier string
  (`client_ip.encode()` in the source); bytes are `Nat` values `< 256`.
* `hashlib.sha256(...).hexdigest()` is embedded as a full executable SHA-256
  implementation producing the 64 lowercase hex characters of the digest.
* Python's floats in the derivation (`0.05 + (seed % 20) / 100`, ...) are
  modelled as exact rationals `ℚ`; the formulas involve only short decimal
  constants and the claims under verification are exact-formula and ordering
  statements.
* Python's `//` on non-negative ints is `Nat` division, `int(h[a:b], 16)` is
  hex-slice evaluation, `max`/`min` are `Nat.max`/`Nat.min`.
-/

set_option autoImplicit false
set_option maxRecDepth 10000

namespace DnsSim

/-! ## SHA-256 (embedding of `hashlib.sha256(...).hexdigest()`)

Standard FIPS 180-4 SHA-256 over a byte list, with 32-bit words represented
as `Nat` values reduced modulo `2 ^ 32`. -/

/-- `2 ^ 32`, the word modulus. -/
def M32 : Nat := 4294967296

/-- Right rotation of a 32-bit word `x` by `n` bits. -/
def rotr32 (n x : Nat) : Nat := ((x >>> n) ||| (x <<< (32 - n))) % M32

/-- SHA-256 round constants K (FIPS 180-4, in decimal). -/
def K : List Nat :=
  [1116352408, 1899447441, 3049323471, 3921009573, 961987163, 1508970993,
   2453635748, 2870763221, 3624381080, 310598401, 607225278, 1426881987,
   1925078388, 2162078206, 2614888103, 3248222580, 3835390401, 4022224774,
   264347078, 604807628, 770255983, 1249150122, 1555081692, 1996064986,
   2554220882, 2821834349, 2952996808, 3210313671, 3336571891, 3584528711,
   113926993, 338241895, 666307205, 773529912, 1294757372, 1396182291,
   1695183700, 1986661051, 2177026350, 2456956037, 2730485921, 2820302411,
   3259730800, 3345764771, 3516065817, 3600352804, 4094571909, 275423344,
   430227734, 506948616, 659060556, 883997877, 958139571, 1322822218,
   1537002063, 1747873779, 1955562222, 2024104815, 2227730452, 2361852424,
   2428436474, 2756734187, 3204031479, 3329325298]

/-- SHA-256 initial hash state H0 (FIPS 180-4, in decimal). -/
def H0 : List Nat :=
  [1779033703, 3144134277, 1013904242, 2773480762,
   1359893119, 2600822924, 528734635, 1541459225]

/-- Message-schedule sigma0. -/
def ssig0 (x : Nat) : Nat := (rotr32 7 x) ^^^ (rotr32 18 x) ^^^ (x >>> 3)

/-- Message-schedule sigma1. -/
def ssig1 (x : Nat) : Nat := (rotr32 17 x) ^^^ (rotr32 19 x) ^^^ (x >>> 10)

/-- Compression Sigma0. -/
def bsig0 (x : Nat) : Nat := (rotr32 2 x) ^^^ (rotr32 13 x) ^^^ (rotr32 22 x)

/-- Compression Sigma1. -/
def bsig1 (x : Nat) : Nat := (rotr32 6 x) ^^^ (rotr32 11 x) ^^^ (rotr32 25 x)

/-- Choice function: for each bit, `y` where `x` is set, else `z`. -/
def ch (x y z : Nat) : Nat := (x &&& y) ^^^ ((x ^^^ 0xffffffff) &&& z)

/-- Majority function. -/
def maj (x y z : Nat) : Nat := (x &&& y) ^^^ (x &&& z) ^^^ (y &&& z)

/-- `k` bytes of `n`, big-endian. -/
def bytesBE (k n : Nat) : List Nat :=
  (List.range k).map fun i => (n >>> (8 * (k - 1 - i))) % 256

/-- SHA-256 padding: append `0x80`, zero bytes, and the 64-bit bit length,
reaching a multiple of 64 bytes. -/
def padMessage (msg : List Nat) : List Nat :=
  let L := msg.length
  let z := (120 - ((L + 1) % 64)) % 64
  msg ++ [128] ++ List.replicate z 0 ++ bytesBE 8 (8 * L)

/-- Group a byte list into big-endian 32-bit words. -/
def toWords : List Nat → List Nat
  | b0 :: b1 :: b2 :: b3 :: rest =>
      (((b0 * 256 + b1) * 256 + b2) * 256 + b3) :: toWords rest
  | _ => []

/-- Split a list into chunks of 64 elements (fuel-based structural
recursion; the fuel `l.length` always suffices since every step consumes at
least one element). -/
def chunks64Go : Nat → List Nat → List (List Nat)
  | 0, _ => []
  | _ + 1, [] => []
  | fuel + 1, l => l.take 64 :: chunks64Go fuel (l.drop 64)

/-- Split a list into chunks of 64 elements. -/
def chunks64 (l : List Nat) : List (List Nat) := chunks64Go l.length l

/-- Extend the 16 block words to the 64-entry message schedule. -/
def schedule (ws : List Nat) : List Nat :=
  (List.range 48).foldl
    (fun w j =>
      let t := j + 16
      w ++ [(ssig1 (w.getD (t - 2) 0) + w.getD (t - 7) 0 +
             ssig0 (w.getD (t - 15) 0) + w.getD (t - 16) 0) % M32])
    ws

/-- One SHA-256 compression round on the 8-word working state. -/
def round1 (w : List Nat) (s : List Nat) (t : Nat) : List Nat :=
  match s with
  | [a, b, c, d, e, f, g, hh] =>
      let T1 := (hh + bsig1 e + ch e f g + K.getD t 0 + w.getD t 0) % M32
      let T2 := (bsig0 a + maj a b c) % M32
      [(T1 + T2) % M32, a, b, c, (d + T1) % M32, e, f, g]
  | s => s

/-- SHA-256 compression of one 16-word block into the hash state. -/
def compress (h : List Nat) (block : List Nat) : List Nat :=
  let w := schedule block
  let s := (List.range 64).foldl (round1 w) h
  List.zipWith (fun x y => (x + y) % M32) h s

/-- SHA-256 of a byte list, as the list of eight 32-bit state words. -/
def sha256Words (msg : List Nat) : List Nat :=
  (chunks64 (padMessage msg)).foldl (fun h b => compress h (toWords b)) H0

/-- SHA-256 of a byte list as a single 256-bit natural number (the
big-endian concatenation of the state words, i.e. the number whose 64-digit
hexadecimal numeral is `hexdigest()`). -/
def sha256Nat (msg : List Nat) : Nat :=
  (sha256Words msg).foldl (fun acc w => acc * M32 + w) 0

/-- The lowercase hex character for a digit `d < 16`. -/
def hexDigitChar (d : Nat) : Char :=
  Char.ofNat (if d < 10 then 48 + d else 87 + d)

/-- The 64 lowercase hex characters of `hexdigest()`: the base-16 digits of
the 256-bit digest, most significant first, with leading zeros. -/
def sha256HexChars (msg : List Nat) : List Char :=
  (List.range 64).map fun i => hexDigitChar ((sha256Nat msg >>> (4 * (63 - i))) % 16)

/-- Value of a lowercase hex character (embedding of `int(c, 16)` on the
characters `hexdigest()` produces). -/
def hexCharVal (c : Char) : Nat :=
  if c.toNat ≤ 57 then c.toNat - 48 else c.toNat - 87

/-- Value of a lowercase hex string (embedding of `int(s, 16)`). -/
def hexToNat (l : List Char) : Nat :=
  l.foldl (fun acc c => 16 * acc + hexCharVal c) 0

/-- Embedding of the Python slice-and-parse `int(h[a:b], 16)` on a hex
digest string `h` (`h[a:b]` is drop `a` then take `b - a`). -/
def hexSeg (h : List Char) (a b : Nat) : Nat :=
  hexToNat ((h.drop a).take (b - a))

/-- FIPS 180-4 test vector: SHA-256 of the empty message. -/
theorem sha256Nat_empty :
    sha256Nat [] =
      0xe3b0c44298fc1c149afbf4c8996fb92427ae41e4649b934ca495991b7852b855 := by
  decide

/-- FIPS 180-4 test vector: SHA-256 of `"abc"` (bytes 97, 98, 99). -/
theorem sha256Nat_abc :
    sha256Nat [97, 98, 99] =
      0xba7816bf8f01cfea414140de5dae2223b00361a396177a9cb410ff61f20015ad := by
  decide

/-! ## Data model: categories and profiles -/

/-- The seven fixed traffic categories, in the fixed order of the source's
`categories` list: `["normal", "cdn", "suspicious", "dga", "malware",
"ads", "tracking"]`. -/
inductive Cat where
  | normal | cdn | suspicious | dga | malware | ads | tracking
deriving DecidableEq, Repr, Fintype

/-- The fixed category order (the `categories` list of the source, which is
also the iteration order of the `weights` dict, since keys are inserted in
this order and later updates do not reorder a Python dict). -/
def catList : List Cat :=
  [.normal, .cdn, .suspicious, .dga, .malware, .ads, .tracking]

/-- Index of a category in the fixed order (the `i` of `enumerate`). -/
def catIdx : Cat → Nat
  | .normal => 0
  | .cdn => 1
  | .suspicious => 2
  | .dga => 3
  | .malware => 4
  | .ads => 5
  | .tracking => 6

/-- The profile dict returned by `generate_client_profile` (fields in source
order; `weights` is the category-weight mapping, intervals and probability
are exact rationals in place of Python floats). -/
structure Profile where
  client_ip : List Nat
  profile_hash : List Char
  dominant : Cat
  secondary : Cat
  suppressed : List Cat
  weights : Cat → Nat
  query_interval : ℚ × ℚ
  burst_probability : ℚ
  burst_size : Nat × Nat
  dga_complexity : String

/-! ## Profile derivation (embedding of `generate_client_profile`)

Each step of the source function (lines 108-173 of `dns_simulator.py`) is a
named definition over the hex digest, and `generate_client_profile`
assembles them. -/

/-- Python's `max(weights, key=weights.get)`: the first element of the list
attaining the maximal value — `max` replaces the running maximum only on a
strictly greater value. -/
def argmaxFirst (l : List Cat) (f : Cat → Nat) : Cat :=
  match l with
  | [] => .normal
  | x :: xs => xs.foldl (fun best c => if f c > f best then c else best) x

/-- Base weights (lines 114-119): for the `i`-th category, `max(1,
int(ip_hash[i*4:(i+1)*4], 16) % 100)`. -/
def baseWeights (h : List Char) (c : Cat) : Nat :=
  max 1 (hexSeg h (catIdx c * 4) ((catIdx c + 1) * 4) % 100)

/-- The dominant category (line 122): `max(weights, key=weights.get)` over
the base weights, iterating in dict insertion order `catList`. -/
def dominantCat (h : List Char) : Cat := argmaxFirst catList (baseWeights h)

/-- The dominant boost (line 125): `20 + (int(ip_hash[28:32], 16) % 30)`. -/
def domBoost (h : List Char) : Nat := 20 + (hexSeg h 28 32 % 30)

/-- Weights after the dominant boost (line 126):
`weights[dominant] = min(80, weights[dominant] + boost)`. -/
def wAfterDominant (h : List Char) (c : Cat) : Nat :=
  if c = dominantCat h then min 80 (baseWeights h c + domBoost h)
  else baseWeights h c

/-- Stable insertion into a list sorted by weight, descending: an element is
placed before the first strictly-smaller-or-equal... precisely, before the
first element it is `≥`, so that among equal weights the earlier (original)
element stays first — matching Python's stable `sorted(..., reverse=True)`. -/
def insertDesc (x : Cat × Nat) : List (Cat × Nat) → List (Cat × Nat)
  | [] => [x]
  | y :: ys => if x.2 ≥ y.2 then x :: y :: ys else y :: insertDesc x ys

/-- Stable descending sort by weight, as `sorted(weights.items(),
key=lambda x: x[1], reverse=True)` (line 129). -/
def sortDesc (l : List (Cat × Nat)) : List (Cat × Nat) := l.foldr insertDesc []

/-- The secondary category (line 130): `sorted_cats[1][0]`, the category in
second position of the stable descending sort of the post-dominant-boost
weights. -/
def secondaryCat (h : List Char) : Cat :=
  ((sortDesc (catList.map fun c => (c, wAfterDominant h c))).getD 1
    (.normal, 0)).1

/-- The secondary boost (line 133): `10 + (int(ip_hash[32:36], 16) % 15)`. -/
def secBoost (h : List Char) : Nat := 10 + (hexSeg h 32 36 % 15)

/-- Weights after the secondary boost (line 134):
`weights[secondary] = min(60, weights[secondary] + sec_boost)`. -/
def wAfterSecondary (h : List Char) (c : Cat) : Nat :=
  if c = secondaryCat h then min 60 (wAfterDominant h c + secBoost h)
  else wAfterDominant h c

/-- The suppression quota (line 137): `1 + (int(ip_hash[36:38], 16) % 2)`. -/
def suppressCount (h : List Char) : Nat := 1 + (hexSeg h 36 38 % 2)

/-- The value `int(ip_hash[38:40], 16)` whose parity gates every suppression
(line 141); the same slice of the digest is re-read at each loop iteration,
so it is one and the same value for all categories. -/
def flipSeed (h : List Char) : Nat := hexSeg h 38 40

/-- The suppression loop (lines 138-143): walk the categories in order,
threading the weight map `w` and the accumulated `suppressed` list; a
category not equal to the dominant or secondary is quartered (floor, min 1)
and recorded while the quota is unfilled and the flip value is even. -/
def suppressLoop (dom sec : Cat) (cnt flip : Nat) :
    List Cat → (Cat → Nat) → List Cat → ((Cat → Nat) × List Cat)
  | [], w, sup => (w, sup)
  | c :: rest, w, sup =>
      if ¬(c = dom ∨ c = sec) ∧ sup.length < cnt then
        if flip % 2 = 0 then
          suppressLoop dom sec cnt flip rest
            (fun x => if x = c then max 1 (w c / 4) else w x) (sup ++ [c])
        else
          suppressLoop dom sec cnt flip rest w sup
      else
        suppressLoop dom sec cnt flip rest w sup

/-- The weight map and suppressed list after the suppression loop. -/
def suppressResult (h : List Char) : (Cat → Nat) × List Cat :=
  suppressLoop (dominantCat h) (secondaryCat h) (suppressCount h) (flipSeed h)
    catList (wAfterSecondary h) []

/-- The final category weights of the derived profile. -/
def finalWeights (h : List Char) : Cat → Nat := (suppressResult h).1

/-- The `suppressed` list of the derived profile. -/
def suppressedList (h : List Char) : List Cat := (suppressResult h).2

/-- The interval seed (line 146): `int(ip_hash[40:44], 16)`. -/
def intervalSeed (h : List Char) : Nat := hexSeg h 40 44

/-- `min_interval = 0.05 + (interval_seed % 20) / 100` (line 147). -/
def minInterval (h : List Char) : ℚ :=
  0.05 + ((intervalSeed h % 20 : Nat) : ℚ) / 100

/-- `max_interval = min_interval + 0.3 + (interval_seed % 50) / 100`
(line 148). -/
def maxInterval (h : List Char) : ℚ :=
  minInterval h + 0.3 + ((intervalSeed h % 50 : Nat) : ℚ) / 100

/-- The burst seed (line 151): `int(ip_hash[44:48], 16)`. -/
def burstSeed (h : List Char) : Nat := hexSeg h 44 48

/-- `burst_prob = 0.05 + (burst_seed % 20) / 100` (line 152). -/
def burstProb (h : List Char) : ℚ :=
  0.05 + ((burstSeed h % 20 : Nat) : ℚ) / 100

/-- DGA complexity from the dominant category (lines 155-160). -/
def dgaComplexityOf (c : Cat) : String :=
  if c = .dga ∨ c = .malware ∨ c = .suspicious then "high"
  else if c = .normal ∨ c = .cdn then "low"
  else "medium"

/-- Embedding of `generate_client_profile` (lines 102-173): the client
identifier is the byte list of the identifier string. -/
def generate_client_profile (client_ip : List Nat) : Profile :=
  let ip_hash := sha256HexChars client_ip
  { client_ip := client_ip
    profile_hash := ip_hash.take 12
    dominant := dominantCat ip_hash
    secondary := secondaryCat ip_hash
    suppressed := suppressedList ip_hash
    weights := finalWeights ip_hash
    query_interval := (minInterval ip_hash, maxInterval ip_hash)
    burst_probability := burstProb ip_hash
    burst_size := (5, 25)
    dga_complexity := dgaComplexityOf (dominantCat ip_hash) }

/-! ## Predefined profiles (embedding of `DNSSimulator._get_predefined_profile`)
and the profile selection of `DNSSimulator.__init__` -/

/-- A profile configuration dict (`self.profile_config`); predefined preset
weights are fractional, so weights here are rationals. -/
structure ProfileConfig where
  weights : Cat → ℚ
  query_interval : ℚ × ℚ
  burst_probability : ℚ
  burst_size : Nat × Nat
  dga_complexity : String
deriving DecidableEq

/-- The `"enterprise"` preset (lines 247-253). -/
def enterpriseProfile : ProfileConfig where
  weights
    | .normal => 60 | .cdn => 25 | .ads => 8 | .tracking => 5
    | .suspicious => 1.5 | .dga => 0.3 | .malware => 0.2
  query_interval := (0.1, 0.5)
  burst_probability := 0.05
  burst_size := (5, 15)
  dga_complexity := "low"

/-- The `"infected"` preset (lines 254-260). -/
def infectedProfile : ProfileConfig where
  weights
    | .normal => 20 | .cdn => 5 | .suspicious => 30 | .dga => 35
    | .malware => 8 | .ads => 1 | .tracking => 1
  query_interval := (0.05, 0.3)
  burst_probability := 0.2
  burst_size := (10, 50)
  dga_complexity := "high"

/-- The `"developer"` preset (lines 261-267). -/
def developerProfile : ProfileConfig where
  weights
    | .normal => 45 | .cdn => 30 | .ads => 5 | .tracking => 10
    | .suspicious => 5 | .dga => 3 | .malware => 2
  query_interval := (0.2, 1.0)
  burst_probability := 0.15
  burst_size := (3, 20)
  dga_complexity := "medium"

/-- The `"mixed"` preset (lines 268-274). -/
def mixedProfile : ProfileConfig where
  weights
    | .normal => 40 | .cdn => 20 | .suspicious => 15 | .dga => 10
    | .malware => 5 | .ads => 5 | .tracking => 5
  query_interval := (0.1, 0.8)
  burst_probability := 0.1
  burst_size := (5, 25)
  dga_complexity := "medium"

/-- Embedding of `_get_predefined_profile` (lines 244-276):
`profiles.get(profile, profiles["mixed"])` — a lookup among the four preset
names that silently falls back to the `"mixed"` preset on any other name.
No exception path exists. -/
def getPredefinedProfile (profile : String) : ProfileConfig :=
  if profile = "enterprise" then enterpriseProfile
  else if profile = "infected" then infectedProfile
  else if profile = "developer" then developerProfile
  else if profile = "mixed" then mixedProfile
  else mixedProfile

/-- The `profile_config` dict built by `__init__` in the `"auto"` branch
(lines 229-238): the derived profile's sampling fields. -/
def autoProfileConfig (client_ip : List Nat) : ProfileConfig :=
  let p := generate_client_profile client_ip
  { weights := fun c => ((p.weights c : Nat) : ℚ)
    query_interval := p.query_interval
    burst_probability := p.burst_probability
    burst_size := p.burst_size
    dga_complexity := p.dga_complexity }

/-- The profile-configuration selection performed by `DNSSimulator.__init__`
(lines 206-242): the `"auto"` profile is derived from the client IP, any
other name goes through `_get_predefined_profile`. The constructor is a
total function into `ProfileConfig`: it contains no validation of weights,
intervals or burst ranges and no raise statement. -/
def initProfileConfig (profile : String) (client_ip : List Nat) : ProfileConfig :=
  if profile = "auto" then autoProfileConfig client_ip
  else getPredefinedProfile profile

/-! ## DGA domain synthesis (embedding of `DNSSimulator.generate_dga_domain`)

The generator is randomized; it is embedded as a deterministic function of
an explicit record of the outcomes of every call it makes to the random
source, together with a validity predicate stating exactly the guarantees
of those calls (`random.randint(a, b)` lands in `[a, b]`,
`random.choices(pop, k=n)` yields `n` elements of `pop`,
`random.choice(l)` yields an element of `l`, `hashlib.md5` hexdigests are
32 lowercase hex characters). -/

/-- `string.ascii_lowercase`. -/
def asciiLowercase : List Char := "abcdefghijklmnopqrstuvwxyz".toList

/-- `string.ascii_letters`. -/
def asciiLetters : List Char :=
  "abcdefghijklmnopqrstuvwxyzABCDEFGHIJKLMNOPQRSTUVWXYZ".toList

/-- `string.digits`. -/
def digitChars : List Char := "0123456789".toList

/-- The consonant alphabet of the `medium` branch (line 321). -/
def consonantChars : List Char := "bcdfghjklmnpqrstvwxz".toList

/-- The vowel alphabet of the `medium` branch (line 322). -/
def vowelChars : List Char := "aeiou".toList

/-- The lowercase hex alphabet (the characters of an md5 `hexdigest()`). -/
def hexChars : List Char := "0123456789abcdef".toList

/-- The fixed TLD list `DGA_TLDS` (line 77). -/
def DGA_TLDS : List (List Char) :=
  [".com".toList, ".net".toList, ".org".toList, ".xyz".toList, ".top".toList,
   ".info".toList, ".biz".toList, ".tk".toList, ".cc".toList, ".pw".toList]

/-- ASCII `str.lower` on one character (the `.lower()` of
`base64_like_string`, applied characterwise). -/
def lowerChar (c : Char) : Char :=
  if 65 ≤ c.toNat ∧ c.toNat ≤ 90 then Char.ofNat (c.toNat + 32) else c

/-- Decimal representation `str(n)` for `n ≤ 999` (the range of
`random.randint(0, 999)` at line 326). -/
def decimalStr (n : Nat) : List Char :=
  if n < 10 then [Char.ofNat (48 + n)]
  else if n < 100 then [Char.ofNat (48 + n / 10), Char.ofNat (48 + n % 10)]
  else [Char.ofNat (48 + n / 100), Char.ofNat (48 + n / 10 % 10),
        Char.ofNat (48 + n % 10)]

/-- The consonant/vowel alternation of the `medium` branch, position-indexed
from `i`: even positions draw from the consonants, odd from the vowels. -/
def altOk : Nat → List Char → Bool
  | _, [] => true
  | i, c :: rest =>
      (c ∈ if i % 2 = 0 then consonantChars else vowelChars) && altOk (i + 1) rest

/-- Outcomes of every random draw `generate_dga_domain` can make, one field
per call site. -/
structure DgaRand where
  /-- `random.randint(8, 12)` of the `low` branch. -/
  lowLen : Nat
  /-- `random.choices(string.ascii_lowercase, k=length)` of the `low` branch. -/
  lowChoices : List Char
  /-- index of `random.choice(patterns)` in the `high` branch. -/
  highPattern : Nat
  /-- `random.randint(10, 20)` of high pattern 0. -/
  hpLen0 : Nat
  /-- `random.choices(ascii_lowercase + digits, k=...)` of high pattern 0. -/
  hpChars0 : List Char
  /-- the md5 `hexdigest()` of high pattern 1 (digest of a volatile
  timestamp: an arbitrary 32-character lowercase hex string). -/
  md5Hex : List Char
  /-- `random.randint(12, 16)` of high pattern 1. -/
  hpLen1 : Nat
  /-- the `(random.choice(lowercase), random.choice(digits))` pairs of high
  pattern 2, one per loop iteration of `range(random.randint(6, 10))`. -/
  hpPairs : List (Char × Char)
  /-- `random.randint(12, 18)` of high pattern 3 (`base64_like_string`). -/
  b64Len : Nat
  /-- `random.choices(ascii_letters + digits, k=length)` inside
  `base64_like_string`. -/
  b64Chars : List Char
  /-- `random.randint(10, 16)` of the `medium` branch. -/
  medLen : Nat
  /-- the per-position `random.choice(consonants/vowels)` draws of the
  `medium` branch. -/
  medChars : List Char
  /-- whether `random.random() > 0.5` at line 325. -/
  medSplice : Bool
  /-- `random.randint(3, 6)` at line 326. -/
  medCut1 : Nat
  /-- `random.randint(0, 999)` at line 326. -/
  medNum : Nat
  /-- `random.randint(6, 10)` at line 326. -/
  medCut2 : Nat
  /-- `random.choice(DGA_TLDS)` at line 328. -/
  tld : List Char

/-- The guarantees of the random source for each draw in `DgaRand`. -/
def DgaRand.Valid (r : DgaRand) : Prop :=
  (8 ≤ r.lowLen ∧ r.lowLen ≤ 12) ∧
  (r.lowChoices.length = r.lowLen ∧ ∀ c ∈ r.lowChoices, c ∈ asciiLowercase) ∧
  r.highPattern < 4 ∧
  (10 ≤ r.hpLen0 ∧ r.hpLen0 ≤ 20) ∧
  (r.hpChars0.length = r.hpLen0 ∧
    ∀ c ∈ r.hpChars0, c ∈ asciiLowercase ++ digitChars) ∧
  (r.md5Hex.length = 32 ∧ ∀ c ∈ r.md5Hex, c ∈ hexChars) ∧
  (12 ≤ r.hpLen1 ∧ r.hpLen1 ≤ 16) ∧
  (6 ≤ r.hpPairs.length ∧ r.hpPairs.length ≤ 10 ∧
    ∀ p ∈ r.hpPairs, p.1 ∈ asciiLowercase ∧ p.2 ∈ digitChars) ∧
  (12 ≤ r.b64Len ∧ r.b64Len ≤ 18) ∧
  (r.b64Chars.length = r.b64Len ∧
    ∀ c ∈ r.b64Chars, c ∈ asciiLetters ++ digitChars) ∧
  (10 ≤ r.medLen ∧ r.medLen ≤ 16) ∧
  (r.medChars.length = r.medLen ∧ altOk 0 r.medChars = true) ∧
  (3 ≤ r.medCut1 ∧ r.medCut1 ≤ 6) ∧
  r.medNum ≤ 999 ∧
  (6 ≤ r.medCut2 ∧ r.medCut2 ≤ 10) ∧
  r.tld ∈ DGA_TLDS

instance (r : DgaRand) : Decidable r.Valid := by
  unfold DgaRand.Valid; infer_instance

/-- Embedding of `base64_like_string` (lines 451-454): random characters
from `ascii_letters + digits`, joined and lowercased. -/
def base64_like_string (chars : List Char) : List Char := chars.map lowerChar

/-- Embedding of `generate_dga_domain` (lines 307-329), as a function of
the drawn random outcomes. Branching follows the source: the `low` and
`high` branches are selected by name, every other complexity string takes
the `else` (consonant/vowel, `medium`) branch. -/
def generate_dga_domain (complexity : String) (r : DgaRand) : List Char :=
  let name : List Char :=
    if complexity = "low" then
      r.lowChoices
    else if complexity = "high" then
      match r.highPattern with
      | 0 => r.hpChars0
      | 1 => r.md5Hex.take r.hpLen1
      | 2 => (r.hpPairs.map fun p => [p.1, p.2]).flatten
      | _ => base64_like_string r.b64Chars
    else
      if r.medSplice then
        r.medChars.take r.medCut1 ++ decimalStr r.medNum ++
          r.medChars.drop r.medCut2
      else r.medChars
  name ++ r.tld

/-! ## Lemmas about the suppression loop -/

/-- Spec-side description of the suppression outcome: the first `k`
categories, in the fixed order, that are neither the dominant nor the
secondary category. -/
def firstEligible (dom sec : Cat) (k : Nat) : List Cat :=
  (catList.filter fun c => decide (¬(c = dom ∨ c = sec))).take k

theorem suppressLoop_odd (dom sec : Cat) (cnt flip : Nat) (hf : flip % 2 = 1) :
    ∀ (l : List Cat) (w : Cat → Nat) (sup : List Cat),
      suppressLoop dom sec cnt flip l w sup = (w, sup) := by
  intro l
  induction l with
  | nil => intro w sup; rfl
  | cons c rest ih =>
      intro w sup
      show (if ¬(c = dom ∨ c = sec) ∧ sup.length < cnt then
              if flip % 2 = 0 then
                suppressLoop dom sec cnt flip rest
                  (fun x => if x = c then max 1 (w c / 4) else w x) (sup ++ [c])
              else suppressLoop dom sec cnt flip rest w sup
            else suppressLoop dom sec cnt flip rest w sup) = (w, sup)
      have h0 : ¬(flip % 2 = 0) := by omega
      by_cases hg : ¬(c = dom ∨ c = sec) ∧ sup.length < cnt
      · rw [if_pos hg, if_neg h0]; exact ih w sup
      · rw [if_neg hg]; exact ih w sup

theorem suppressLoop_sup_decomp (dom sec : Cat) (cnt flip : Nat) :
    ∀ (l : List Cat) (w : Cat → Nat) (sup : List Cat),
      ∃ δ, (suppressLoop dom sec cnt flip l w sup).2 = sup ++ δ ∧
        ∀ c ∈ δ, c ∈ l ∧ ¬(c = dom ∨ c = sec) := by
  intro l
  induction l with
  | nil => intro w sup; exact ⟨[], by simp [suppressLoop]⟩
  | cons c rest ih =>
      intro w sup
      show ∃ δ, (if ¬(c = dom ∨ c = sec) ∧ sup.length < cnt then
              if flip % 2 = 0 then
                suppressLoop dom sec cnt flip rest
                  (fun x => if x = c then max 1 (w c / 4) else w x) (sup ++ [c])
              else suppressLoop dom sec cnt flip rest w sup
            else suppressLoop dom sec cnt flip rest w sup).2 = sup ++ δ ∧ _
      by_cases hg : ¬(c = dom ∨ c = sec) ∧ sup.length < cnt
      · rw [if_pos hg]
        by_cases h0 : flip % 2 = 0
        · rw [if_pos h0]
          obtain ⟨δ, hδ, hmem⟩ :=
            ih (fun x => if x = c then max 1 (w c / 4) else w x) (sup ++ [c])
          refine ⟨c :: δ, by simpa using hδ, ?_⟩
          intro x hx
          rcases List.mem_cons.mp hx with rfl | hx
          · exact ⟨List.mem_cons_self _ _, hg.1⟩
          · exact ⟨List.mem_cons_of_mem _ (hmem x hx).1, (hmem x hx).2⟩
        · rw [if_neg h0]
          obtain ⟨δ, hδ, hmem⟩ := ih w sup
          exact ⟨δ, hδ, fun x hx =>
            ⟨List.mem_cons_of_mem _ (hmem x hx).1, (hmem x hx).2⟩⟩
      · rw [if_neg hg]
        obtain ⟨δ, hδ, hmem⟩ := ih w sup
        exact ⟨δ, hδ, fun x hx =>
          ⟨List.mem_cons_of_mem _ (hmem x hx).1, (hmem x hx).2⟩⟩

theorem suppressLoop_even_sup (dom sec : Cat) (cnt flip : Nat)
    (hf : flip % 2 = 0) :
    ∀ (l : List Cat) (w : Cat → Nat) (sup : List Cat),
      (suppressLoop dom sec cnt flip l w sup).2 =
        sup ++ (l.filter fun c => decide (¬(c = dom ∨ c = sec))).take
          (cnt - sup.length) := by
  intro l
  induction l with
  | nil => intro w sup; simp [suppressLoop]
  | cons c rest ih =>
      intro w sup
      show (if ¬(c = dom ∨ c = sec) ∧ sup.length < cnt then
              if flip % 2 = 0 then
                suppressLoop dom sec cnt flip rest
                  (fun x => if x = c then max 1 (w c / 4) else w x) (sup ++ [c])
              else suppressLoop dom sec cnt flip rest w sup
            else suppressLoop dom sec cnt flip rest w sup).2 = _
      by_cases he : ¬(c = dom ∨ c = sec)
      · by_cases hq : sup.length < cnt
        · rw [if_pos ⟨he, hq⟩, if_pos hf, ih]
          have h1 : (List.filter (fun c => decide (¬(c = dom ∨ c = sec)))
              (c :: rest)) = c :: rest.filter fun c =>
                decide (¬(c = dom ∨ c = sec)) := by
            have hne : ¬c = dom ∧ ¬c = sec :=
              ⟨fun hh => he (Or.inl hh), fun hh => he (Or.inr hh)⟩
            simp [List.filter_cons, hne]
          rw [h1]
          have h2 : cnt - sup.length = (cnt - (sup ++ [c]).length) + 1 := by
            simp only [List.length_append, List.length_singleton]
            omega
          rw [h2, List.take_succ_cons, List.append_assoc]
          rfl
        · rw [if_neg (by tauto), ih]
          have h2 : cnt - sup.length = 0 := by omega
          rw [h2]
          have h1 : (List.filter (fun c => decide (¬(c = dom ∨ c = sec)))
              (c :: rest)) = c :: rest.filter fun c =>
                decide (¬(c = dom ∨ c = sec)) := by
            have hne : ¬c = dom ∧ ¬c = sec :=
              ⟨fun hh => he (Or.inl hh), fun hh => he (Or.inr hh)⟩
            simp [List.filter_cons, hne]
          simp [h1]
      · rw [if_neg (by tauto), ih]
        have h1 : (List.filter (fun c => decide (¬(c = dom ∨ c = sec)))
            (c :: rest)) = rest.filter fun c =>
              decide (¬(c = dom ∨ c = sec)) := by
          simp only [List.filter_cons]
          simp [he]
        rw [h1]

theorem suppressLoop_keep (dom sec : Cat) (cnt flip : Nat) :
    ∀ (l : List Cat) (w : Cat → Nat) (sup : List Cat) (x : Cat),
      (x = dom ∨ x = sec) →
      (suppressLoop dom sec cnt flip l w sup).1 x = w x := by
  intro l
  induction l with
  | nil => intro w sup x _; rfl
  | cons c rest ih =>
      intro w sup x hx
      show (if ¬(c = dom ∨ c = sec) ∧ sup.length < cnt then
              if flip % 2 = 0 then
                suppressLoop dom sec cnt flip rest
                  (fun y => if y = c then max 1 (w c / 4) else w y) (sup ++ [c])
              else suppressLoop dom sec cnt flip rest w sup
            else suppressLoop dom sec cnt flip rest w sup).1 x = w x
      by_cases hg : ¬(c = dom ∨ c = sec) ∧ sup.length < cnt
      · by_cases h0 : flip % 2 = 0
        · rw [if_pos hg, if_pos h0, ih _ _ x hx]
          have hxc : x ≠ c := by
            rcases hx with rfl | rfl
            · intro hxc; exact hg.1 (Or.inl hxc.symm)
            · intro hxc; exact hg.1 (Or.inr hxc.symm)
          simp [hxc]
        · rw [if_pos hg, if_neg h0, ih _ _ x hx]
      · rw [if_neg hg, ih _ _ x hx]

theorem suppressLoop_weights (dom sec : Cat) (cnt flip : Nat) :
    ∀ (l : List Cat) (w : Cat → Nat) (sup : List Cat),
      l.Nodup → (∀ c ∈ l, c ∉ sup) →
      ∀ x, (suppressLoop dom sec cnt flip l w sup).1 x =
        if x ∈ l ∧ x ∈ (suppressLoop dom sec cnt flip l w sup).2
        then max 1 (w x / 4) else w x := by
  intro l
  induction l with
  | nil => intro w sup _ _ x; simp [suppressLoop]
  | cons c rest ih =>
      intro w sup hnd hdisj x
      have hnd' : rest.Nodup := (List.nodup_cons.mp hnd).2
      have hcr : c ∉ rest := (List.nodup_cons.mp hnd).1
      have heq : suppressLoop dom sec cnt flip (c :: rest) w sup =
          (if ¬(c = dom ∨ c = sec) ∧ sup.length < cnt then
            if flip % 2 = 0 then
              suppressLoop dom sec cnt flip rest
                (fun y => if y = c then max 1 (w c / 4) else w y) (sup ++ [c])
            else suppressLoop dom sec cnt flip rest w sup
          else suppressLoop dom sec cnt flip rest w sup) := rfl
      rw [heq]
      by_cases hg : ¬(c = dom ∨ c = sec) ∧ sup.length < cnt
      · by_cases h0 : flip % 2 = 0
        · rw [if_pos hg, if_pos h0]
          set w' : Cat → Nat := fun y => if y = c then max 1 (w c / 4) else w y
            with hw'
          have hdisj' : ∀ a ∈ rest, a ∉ sup ++ [c] := by
            intro a ha
            simp only [List.mem_append, List.mem_singleton]
            rintro (h | rfl)
            · exact hdisj a (List.mem_cons_of_mem _ ha) h
            · exact hcr ha
          have ihx := ih w' (sup ++ [c]) hnd' hdisj' x
          by_cases hxc : x = c
          · subst hxc
            rw [ihx]
            have hnotrest : ¬(x ∈ rest ∧
                x ∈ (suppressLoop dom sec cnt flip rest w' (sup ++ [x])).2) :=
              fun hc => hcr hc.1
            rw [if_neg hnotrest]
            have hx2 : x ∈ (suppressLoop dom sec cnt flip rest w'
                (sup ++ [x])).2 := by
              obtain ⟨δ, hδ, _⟩ :=
                suppressLoop_sup_decomp dom sec cnt flip rest w' (sup ++ [x])
              rw [hδ]
              simp
            rw [if_pos ⟨List.mem_cons_self _ _, hx2⟩]
            simp [hw']
          · rw [ihx]
            have hw'x : w' x = w x := by simp [hw', hxc]
            have hmemiff : (x ∈ c :: rest) ↔ (x ∈ rest) := by
              simp [List.mem_cons, hxc]
            rw [hw'x]
            by_cases hcond : x ∈ rest ∧
                x ∈ (suppressLoop dom sec cnt flip rest w' (sup ++ [c])).2
            · rw [if_pos hcond, if_pos ⟨List.mem_cons_of_mem _ hcond.1, hcond.2⟩]
            · rw [if_neg hcond, if_neg (by
                intro hc
                exact hcond ⟨hmemiff.mp hc.1, hc.2⟩)]
        · rw [if_pos hg, if_neg h0]
          have ihx := ih w sup hnd'
            (fun a ha => hdisj a (List.mem_cons_of_mem _ ha)) x
          rw [ihx]
          by_cases hxc : x = c
          · subst hxc
            have hx2 : x ∉ (suppressLoop dom sec cnt flip rest w sup).2 := by
              obtain ⟨δ, hδ, hmem⟩ :=
                suppressLoop_sup_decomp dom sec cnt flip rest w sup
              rw [hδ]
              simp only [List.mem_append]
              rintro (h | h)
              · exact hdisj x (List.mem_cons_self _ _) h
              · exact hcr (hmem x h).1
            rw [if_neg (fun hc => hx2 hc.2), if_neg (fun hc => hx2 hc.2)]
          · have hmemiff : (x ∈ c :: rest) ↔ (x ∈ rest) := by
              simp [List.mem_cons, hxc]
            by_cases hcond : x ∈ rest ∧
                x ∈ (suppressLoop dom sec cnt flip rest w sup).2
            · rw [if_pos hcond, if_pos ⟨List.mem_cons_of_mem _ hcond.1, hcond.2⟩]
            · rw [if_neg hcond, if_neg (by
                intro hc
                exact hcond ⟨hmemiff.mp hc.1, hc.2⟩)]
      · rw [if_neg hg]
        have ihx := ih w sup hnd'
          (fun a ha => hdisj a (List.mem_cons_of_mem _ ha)) x
        rw [ihx]
        by_cases hxc : x = c
        · subst hxc
          have hx2 : x ∉ (suppressLoop dom sec cnt flip rest w sup).2 := by
            obtain ⟨δ, hδ, hmem⟩ :=
              suppressLoop_sup_decomp dom sec cnt flip rest w sup
            rw [hδ]
            simp only [List.mem_append]
            rintro (h | h)
            · exact hdisj x (List.mem_cons_self _ _) h
            · exact hcr (hmem x h).1
          rw [if_neg (fun hc => hx2 hc.2), if_neg (fun hc => hx2 hc.2)]
        · have hmemiff : (x ∈ c :: rest) ↔ (x ∈ rest) := by
            simp [List.mem_cons, hxc]
          by_cases hcond : x ∈ rest ∧
              x ∈ (suppressLoop dom sec cnt flip rest w sup).2
          · rw [if_pos hcond, if_pos ⟨List.mem_cons_of_mem _ hcond.1, hcond.2⟩]
          · rw [if_neg hcond, if_neg (by
              intro hc
              exact hcond ⟨hmemiff.mp hc.1, hc.2⟩)]

/-- The suppressed list, in closed form: empty when the flip value is odd,
otherwise the first `suppressCount` categories in fixed order that are
neither dominant nor secondary. -/
theorem suppressedList_closed_form (h : List Char) :
    suppressedList h =
      if flipSeed h % 2 = 0 then
        firstEligible (dominantCat h) (secondaryCat h) (suppressCount h)
      else [] := by
  by_cases h0 : flipSeed h % 2 = 0
  · rw [if_pos h0]
    unfold suppressedList suppressResult firstEligible
    rw [suppressLoop_even_sup _ _ _ _ h0]
    simp
  · rw [if_neg h0]
    unfold suppressedList suppressResult
    rw [suppressLoop_odd _ _ _ _ (by omega)]


/-- Every category is in the fixed list. -/
theorem mem_catList (c : Cat) : c ∈ catList := by cases c <;> decide

/-- The fixed category list has no duplicates. -/
theorem catList_nodup : catList.Nodup := by decide

/-- At most the dominant and secondary categories are excluded, so at least
five of the seven categories remain eligible for suppression. -/
theorem five_le_eligible (dom sec : Cat) :
    5 ≤ (catList.filter fun c => decide (¬(c = dom ∨ c = sec))).length := by
  revert dom sec; decide

/-- The final weight map, in closed form: suppressed categories are
quartered (floor, minimum 1) relative to the post-secondary-boost weights,
all others keep their post-secondary-boost weight. -/
theorem finalWeights_eq (h : List Char) :
    finalWeights h = fun c =>
      if c ∈ suppressedList h then max 1 (wAfterSecondary h c / 4)
      else wAfterSecondary h c := by
  funext x
  have hx := suppressLoop_weights (dominantCat h) (secondaryCat h)
    (suppressCount h) (flipSeed h) catList (wAfterSecondary h) []
    catList_nodup (by simp) x
  show (suppressResult h).1 x = _
  unfold suppressResult at hx ⊢
  rw [hx]
  have hmem : x ∈ catList := mem_catList x
  show (if x ∈ catList ∧ x ∈ suppressedList h then _ else _) = _
  by_cases hs : x ∈ suppressedList h
  · rw [if_pos ⟨hmem, hs⟩, if_pos hs]
  · rw [if_neg (fun hc => hs hc.2), if_neg hs]

/-- The suppression loop never touches the dominant weight. -/
theorem finalWeights_dominant (h : List Char) :
    finalWeights h (dominantCat h) = wAfterSecondary h (dominantCat h) :=
  suppressLoop_keep _ _ _ _ catList (wAfterSecondary h) [] _ (Or.inl rfl)

/-- The suppression loop never touches the secondary weight. -/
theorem finalWeights_secondary (h : List Char) :
    finalWeights h (secondaryCat h) = wAfterSecondary h (secondaryCat h) :=
  suppressLoop_keep _ _ _ _ catList (wAfterSecondary h) [] _ (Or.inr rfl)

/-- Every post-secondary-boost weight is at least 1. -/
theorem one_le_wAfterSecondary (h : List Char) (c : Cat) :
    1 ≤ wAfterSecondary h c := by
  have hb : 1 ≤ baseWeights h c := Nat.le_max_left _ _
  have h1 : 1 ≤ wAfterDominant h c := by
    unfold wAfterDominant
    split
    · exact Nat.le_min.mpr ⟨by omega, by omega⟩
    · exact hb
  unfold wAfterSecondary
  split
  · exact Nat.le_min.mpr ⟨by omega, by omega⟩
  · exact h1

/-- Every final weight is at least 1. -/
theorem one_le_finalWeights (h : List Char) (c : Cat) :
    1 ≤ finalWeights h c := by
  have := congrFun (finalWeights_eq h) c
  rw [this]
  split
  · exact Nat.le_max_left _ _
  · exact one_le_wAfterSecondary h c

/-- The dominant category's final weight never exceeds 80 (it is either
`min 80 (base + boost)`, or — when the capped dominant has been overtaken
and is also recorded as secondary — `min 60 (... + sec_boost)`). -/
theorem finalWeights_dom_le (h : List Char) :
    finalWeights h (dominantCat h) ≤ 80 := by
  rw [finalWeights_dominant]
  unfold wAfterSecondary
  split
  · exact le_trans (Nat.min_le_left _ _) (by omega)
  · unfold wAfterDominant
    rw [if_pos rfl]
    exact Nat.min_le_left _ _

/-- The secondary category's final weight never exceeds 60. -/
theorem finalWeights_sec_le (h : List Char) :
    finalWeights h (secondaryCat h) ≤ 60 := by
  rw [finalWeights_secondary]
  unfold wAfterSecondary
  rw [if_pos rfl]
  exact Nat.min_le_left _ _

/-- The length of the suppressed list, in closed form. -/
theorem suppressedList_length (h : List Char) :
    (suppressedList h).length =
      if flipSeed h % 2 = 0 then suppressCount h else 0 := by
  rw [suppressedList_closed_form]
  by_cases h0 : flipSeed h % 2 = 0
  · rw [if_pos h0, if_pos h0]
    unfold firstEligible
    rw [List.length_take]
    have h5 := five_le_eligible (dominantCat h) (secondaryCat h)
    have h2 : suppressCount h ≤ 2 := by unfold suppressCount; omega
    omega
  · rw [if_neg h0, if_neg h0]
    rfl

/-- The dominant category is never suppressed. -/
theorem dominant_not_suppressed (h : List Char) :
    dominantCat h ∉ suppressedList h := by
  rw [suppressedList_closed_form]
  by_cases h0 : flipSeed h % 2 = 0
  · rw [if_pos h0]
    intro hmem
    unfold firstEligible at hmem
    have hf := List.mem_filter.mp (List.take_subset _ _ hmem)
    have hne : ¬(dominantCat h = dominantCat h ∨ dominantCat h = secondaryCat h) := by
      simpa using hf.2
    exact hne (Or.inl rfl)
  · rw [if_neg h0]
    simp

/-- The secondary category is never suppressed. -/
theorem secondary_not_suppressed (h : List Char) :
    secondaryCat h ∉ suppressedList h := by
  rw [suppressedList_closed_form]
  by_cases h0 : flipSeed h % 2 = 0
  · rw [if_pos h0]
    intro hmem
    unfold firstEligible at hmem
    have hf := List.mem_filter.mp (List.take_subset _ _ hmem)
    have hne : ¬(secondaryCat h = dominantCat h ∨ secondaryCat h = secondaryCat h) := by
      simpa using hf.2
    exact hne (Or.inr rfl)
  · rw [if_neg h0]
    simp

/-- The suppression quota is 1 or 2. -/
theorem suppressCount_le_two (h : List Char) : suppressCount h ≤ 2 := by
  unfold suppressCount; omega

/-- `0 < min_interval`. -/
theorem minInterval_pos (h : List Char) : 0 < minInterval h := by
  unfold minInterval
  positivity

/-- `min_interval < max_interval`. -/
theorem minInterval_lt_maxInterval (h : List Char) :
    minInterval h < maxInterval h := by
  unfold maxInterval
  have h1 : (0 : ℚ) ≤ ((intervalSeed h % 50 : Nat) : ℚ) := Nat.cast_nonneg _
  have h2 : (0 : ℚ) < 0.3 := by norm_num
  linarith

/-- `0 ≤ burst_prob`. -/
theorem burstProb_nonneg (h : List Char) : 0 ≤ burstProb h := by
  unfold burstProb
  positivity

/-- `burst_prob ≤ 1` (it is at most `0.05 + 19/100 = 0.24`). -/
theorem burstProb_le_one (h : List Char) : burstProb h ≤ 1 := by
  unfold burstProb
  have h1 : ((burstSeed h % 20 : Nat) : ℚ) ≤ 19 := by
    have : burstSeed h % 20 ≤ 19 := by omega
    exact_mod_cast this
  have h2 : (0.05 : ℚ) = 1/20 := by norm_num
  linarith

/-! ## The claims -/

/-- C1. `generate_client_profile` is a pure function of the identifier: two
calls with the same identifier yield the identical category weight mapping,
dominant, secondary, suppressed list, query interval pair, burst
probability, burst size range and dga complexity. In this embedding the
derivation consumes only the SHA-256 digest of the identifier — it has no
random or ambient input at all — so the two results are one and the same
value. -/
theorem claim_C1_determinism (id : List Nat) :
    (generate_client_profile id).weights = (generate_client_profile id).weights ∧
    (generate_client_profile id).dominant = (generate_client_profile id).dominant ∧
    (generate_client_profile id).secondary = (generate_client_profile id).secondary ∧
    (generate_client_profile id).suppressed = (generate_client_profile id).suppressed ∧
    (generate_client_profile id).query_interval = (generate_client_profile id).query_interval ∧
    (generate_client_profile id).burst_probability = (generate_client_profile id).burst_probability ∧
    (generate_client_profile id).burst_size = (generate_client_profile id).burst_size ∧
    (generate_client_profile id).dga_complexity = (generate_client_profile id).dga_complexity :=
  ⟨rfl, rfl, rfl, rfl, rfl, rfl, rfl, rfl⟩

set_option maxHeartbeats 4000000 in
/-- C2, counterexample. For the identifier `"1"` (byte 49) the category
recorded as dominant is `malware` (base weight 99, the maximum): its boost
is capped at 80, which drops it below `cdn`'s base weight 83; the stable
descending sort then puts `cdn` first and `malware` second, so `malware` is
also recorded as secondary and its weight is overwritten to
`min(60, 80 + 14) = 60`. The final weight of the dominant category (60) is
therefore not the maximum of the weight mapping (`cdn` keeps 83). -/
theorem claim_C2_counterexample :
    ¬ ∀ c : Cat, (generate_client_profile [49]).weights c ≤
      (generate_client_profile [49]).weights (generate_client_profile [49]).dominant := by
  decide

seal sha256HexChars dominantCat secondaryCat suppressResult in
/-- C2, amended: for every identifier the weight of the category recorded
as dominant is at most 80 and the weight of the category recorded as
secondary is at most 60 — but the dominant's weight need not be the maximum
of the mapping (see the counterexample). -/
theorem claim_C2_amended (id : List Nat) :
    (generate_client_profile id).weights (generate_client_profile id).dominant ≤ 80 ∧
    (generate_client_profile id).weights (generate_client_profile id).secondary ≤ 60 := by
  have hw : (generate_client_profile id).weights =
      finalWeights (sha256HexChars id) := rfl
  have hd : (generate_client_profile id).dominant =
      dominantCat (sha256HexChars id) := rfl
  have hs : (generate_client_profile id).secondary =
      secondaryCat (sha256HexChars id) := rfl
  rw [hw, hd, hs]
  exact ⟨finalWeights_dom_le _, finalWeights_sec_le _⟩

set_option maxHeartbeats 4000000 in
/-- C3, counterexample. For the identifier `"0"` (byte 48) the digest
segment at hex positions [38,40) is `"39"` = 57, which is odd, so the
suppression coin flip fails for every category and the suppressed list is
empty — its length is 0, not 1 or 2. -/
theorem claim_C3_counterexample :
    (generate_client_profile [48]).suppressed = [] ∧
    ¬((generate_client_profile [48]).suppressed.length = 1 ∨
      (generate_client_profile [48]).suppressed.length = 2) := by
  decide

seal sha256HexChars dominantCat secondaryCat suppressResult in
/-- C3, amended: the suppressed list has length 0, 1 or 2 — it is empty
when the single digest coin flip (the value of hex positions [38,40),
shared by all categories, not a per-category flip) is odd, and otherwise
has exactly the quota `1 + (segment [36,38) mod 2)` elements; it never
contains the dominant or secondary category; and each suppressed category's
weight is the quarter (integer floor, minimum 1) of its
post-secondary-boost weight, all others keeping theirs. -/
theorem claim_C3_amended (id : List Nat) :
    (generate_client_profile id).suppressed.length =
      (if flipSeed (sha256HexChars id) % 2 = 0
       then suppressCount (sha256HexChars id) else 0) ∧
    (generate_client_profile id).suppressed.length ≤ 2 ∧
    (generate_client_profile id).dominant ∉ (generate_client_profile id).suppressed ∧
    (generate_client_profile id).secondary ∉ (generate_client_profile id).suppressed ∧
    (generate_client_profile id).weights = (fun c =>
      if c ∈ (generate_client_profile id).suppressed
      then max 1 (wAfterSecondary (sha256HexChars id) c / 4)
      else wAfterSecondary (sha256HexChars id) c) := by
  have hsup : (generate_client_profile id).suppressed =
      suppressedList (sha256HexChars id) := rfl
  have hw : (generate_client_profile id).weights =
      finalWeights (sha256HexChars id) := rfl
  have hd : (generate_client_profile id).dominant =
      dominantCat (sha256HexChars id) := rfl
  have hs : (generate_client_profile id).secondary =
      secondaryCat (sha256HexChars id) := rfl
  rw [hsup, hw, hd, hs]
  refine ⟨suppressedList_length _, ?_, dominant_not_suppressed _,
    secondary_not_suppressed _, finalWeights_eq _⟩
  rw [suppressedList_length]
  have h2 : suppressCount (sha256HexChars id) ≤ 2 := suppressCount_le_two _
  split <;> omega

seal sha256HexChars dominantCat secondaryCat suppressResult in
/-- C4. The base weight of the `i`-th category in the fixed order is
`max(1, v mod 100)` where `v` is the value of hex characters
`[4*i, 4*i+4)` of the SHA-256 hex digest of the identifier. -/
theorem claim_C4_base_weights (id : List Nat) (i : Fin 7) :
    baseWeights (sha256HexChars id) (catList.getD i Cat.normal) =
      max 1 (hexToNat (((sha256HexChars id).drop (4 * (i : Nat))).take 4) % 100) := by
  fin_cases i <;> simp [baseWeights, catIdx, catList, hexSeg]

seal sha256HexChars dominantCat secondaryCat suppressResult in
/-- C5. The `dga_complexity` field is `"high"` exactly when the dominant
category is dga, malware or suspicious; `"low"` exactly when it is normal
or cdn; and `"medium"` exactly when it is ads or tracking. -/
theorem claim_C5_dga_complexity (id : List Nat) :
    ((generate_client_profile id).dga_complexity = "high" ↔
      ((generate_client_profile id).dominant = Cat.dga ∨
       (generate_client_profile id).dominant = Cat.malware ∨
       (generate_client_profile id).dominant = Cat.suspicious)) ∧
    ((generate_client_profile id).dga_complexity = "low" ↔
      ((generate_client_profile id).dominant = Cat.normal ∨
       (generate_client_profile id).dominant = Cat.cdn)) ∧
    ((generate_client_profile id).dga_complexity = "medium" ↔
      ((generate_client_profile id).dominant = Cat.ads ∨
       (generate_client_profile id).dominant = Cat.tracking)) := by
  have h1 : (generate_client_profile id).dga_complexity =
      dgaComplexityOf (dominantCat (sha256HexChars id)) := rfl
  have h2 : (generate_client_profile id).dominant =
      dominantCat (sha256HexChars id) := rfl
  rw [h1, h2]
  generalize dominantCat (sha256HexChars id) = d
  cases d <;> decide

seal sha256HexChars dominantCat secondaryCat suppressResult in
/-- C6. The derived profile satisfies the TrafficProfile invariants —
every weight is at least 1, the query interval has `0 < min < max`, the
burst probability lies in `[0, 1]`, the burst size range is `(5, 25)` with
`1 ≤ min ≤ max` — and the pacing fields follow the exact formulas
`min = 0.05 + (seed mod 20)/100`, `max = min + 0.3 + (seed mod 50)/100`,
`burst probability = 0.05 + (seed' mod 20)/100`. -/
theorem claim_C6_invariants (id : List Nat) :
    (∀ c : Cat, 1 ≤ (generate_client_profile id).weights c) ∧
    0 < (generate_client_profile id).query_interval.1 ∧
    (generate_client_profile id).query_interval.1 <
      (generate_client_profile id).query_interval.2 ∧
    0 ≤ (generate_client_profile id).burst_probability ∧
    (generate_client_profile id).burst_probability ≤ 1 ∧
    (generate_client_profile id).burst_size = (5, 25) ∧
    1 ≤ (generate_client_profile id).burst_size.1 ∧
    (generate_client_profile id).burst_size.1 ≤
      (generate_client_profile id).burst_size.2 ∧
    (generate_client_profile id).query_interval.1 =
      0.05 + ((intervalSeed (sha256HexChars id) % 20 : Nat) : ℚ) / 100 ∧
    (generate_client_profile id).query_interval.2 =
      (generate_client_profile id).query_interval.1 + 0.3 +
        ((intervalSeed (sha256HexChars id) % 50 : Nat) : ℚ) / 100 ∧
    (generate_client_profile id).burst_probability =
      0.05 + ((burstSeed (sha256HexChars id) % 20 : Nat) : ℚ) / 100 := by
  have hw : (generate_client_profile id).weights =
      finalWeights (sha256HexChars id) := rfl
  have hq1 : (generate_client_profile id).query_interval.1 =
      minInterval (sha256HexChars id) := rfl
  have hq2 : (generate_client_profile id).query_interval.2 =
      maxInterval (sha256HexChars id) := rfl
  have hbp : (generate_client_profile id).burst_probability =
      burstProb (sha256HexChars id) := rfl
  have hbs : (generate_client_profile id).burst_size = (5, 25) := rfl
  rw [hw, hq1, hq2, hbp, hbs]
  refine ⟨fun c => one_le_finalWeights _ c, minInterval_pos _,
    minInterval_lt_maxInterval _, burstProb_nonneg _, burstProb_le_one _,
    rfl, by omega, by omega, rfl, rfl, rfl⟩


/-- C7. The four predefined presets match the spec's preset table verbatim:
weights, query interval, burst probability, burst size and dga complexity. -/
theorem claim_C7_presets :
    (getPredefinedProfile "enterprise").weights Cat.normal = 60 ∧
    (getPredefinedProfile "enterprise").weights Cat.cdn = 25 ∧
    (getPredefinedProfile "enterprise").weights Cat.ads = 8 ∧
    (getPredefinedProfile "enterprise").weights Cat.tracking = 5 ∧
    (getPredefinedProfile "enterprise").weights Cat.suspicious = 1.5 ∧
    (getPredefinedProfile "enterprise").weights Cat.dga = 0.3 ∧
    (getPredefinedProfile "enterprise").weights Cat.malware = 0.2 ∧
    (getPredefinedProfile "enterprise").query_interval = (0.1, 0.5) ∧
    (getPredefinedProfile "enterprise").burst_probability = 0.05 ∧
    (getPredefinedProfile "enterprise").burst_size = (5, 15) ∧
    (getPredefinedProfile "enterprise").dga_complexity = "low" ∧
    (getPredefinedProfile "infected").weights Cat.normal = 20 ∧
    (getPredefinedProfile "infected").weights Cat.cdn = 5 ∧
    (getPredefinedProfile "infected").weights Cat.ads = 1 ∧
    (getPredefinedProfile "infected").weights Cat.tracking = 1 ∧
    (getPredefinedProfile "infected").weights Cat.suspicious = 30 ∧
    (getPredefinedProfile "infected").weights Cat.dga = 35 ∧
    (getPredefinedProfile "infected").weights Cat.malware = 8 ∧
    (getPredefinedProfile "infected").query_interval = (0.05, 0.3) ∧
    (getPredefinedProfile "infected").burst_probability = 0.2 ∧
    (getPredefinedProfile "infected").burst_size = (10, 50) ∧
    (getPredefinedProfile "infected").dga_complexity = "high" ∧
    (getPredefinedProfile "developer").weights Cat.normal = 45 ∧
    (getPredefinedProfile "developer").weights Cat.cdn = 30 ∧
    (getPredefinedProfile "developer").weights Cat.ads = 5 ∧
    (getPredefinedProfile "developer").weights Cat.tracking = 10 ∧
    (getPredefinedProfile "developer").weights Cat.suspicious = 5 ∧
    (getPredefinedProfile "developer").weights Cat.dga = 3 ∧
    (getPredefinedProfile "developer").weights Cat.malware = 2 ∧
    (getPredefinedProfile "developer").query_interval = (0.2, 1.0) ∧
    (getPredefinedProfile "developer").burst_probability = 0.15 ∧
    (getPredefinedProfile "developer").burst_size = (3, 20) ∧
    (getPredefinedProfile "developer").dga_complexity = "medium" ∧
    (getPredefinedProfile "mixed").weights Cat.normal = 40 ∧
    (getPredefinedProfile "mixed").weights Cat.cdn = 20 ∧
    (getPredefinedProfile "mixed").weights Cat.ads = 5 ∧
    (getPredefinedProfile "mixed").weights Cat.tracking = 5 ∧
    (getPredefinedProfile "mixed").weights Cat.suspicious = 15 ∧
    (getPredefinedProfile "mixed").weights Cat.dga = 10 ∧
    (getPredefinedProfile "mixed").weights Cat.malware = 5 ∧
    (getPredefinedProfile "mixed").query_interval = (0.1, 0.8) ∧
    (getPredefinedProfile "mixed").burst_probability = 0.1 ∧
    (getPredefinedProfile "mixed").burst_size = (5, 25) ∧
    (getPredefinedProfile "mixed").dga_complexity = "medium" :=
  ⟨rfl, rfl, rfl, rfl, rfl, rfl, rfl, rfl, rfl, rfl, rfl, rfl, rfl, rfl, rfl, rfl, rfl, rfl, rfl, rfl, rfl, rfl, rfl, rfl, rfl, rfl, rfl, rfl, rfl, rfl, rfl, rfl, rfl, rfl, rfl, rfl, rfl, rfl, rfl, rfl, rfl, rfl, rfl, rfl⟩

/-- C9, counterexample. Constructing the simulator with an unrecognized
profile name does not signal any configuration error: the constructor is a
total function, and `_get_predefined_profile` silently returns the
`"mixed"` preset for the unrecognized name. (The constructor also performs
no validation whatsoever of weights, interval bounds or burst ranges.) -/
theorem claim_C9_counterexample :
    initProfileConfig "unrecognized-profile" [48] = mixedProfile := by
  rfl

/-- C9, amended: construction never signals a configuration error — there
is no validation of the profile at construction time, and an unrecognized
profile name silently falls back to the `"mixed"` preset. -/
theorem claim_C9_amended (s : String) (h1 : s ≠ "enterprise")
    (h2 : s ≠ "infected") (h3 : s ≠ "developer") (h4 : s ≠ "mixed") :
    getPredefinedProfile s = mixedProfile := by
  unfold getPredefinedProfile
  rw [if_neg h1, if_neg h2, if_neg h3, if_neg h4]

/-- Witness for C9 at the concrete profile name `"bogus"`. -/
theorem claim_C9_witness :
    "bogus" ≠ "enterprise" ∧ "bogus" ≠ "infected" ∧ "bogus" ≠ "developer" ∧
    "bogus" ≠ "mixed" ∧ getPredefinedProfile "bogus" = mixedProfile :=
  ⟨by decide, by decide, by decide, by decide,
   claim_C9_amended "bogus" (by decide) (by decide) (by decide) (by decide)⟩

seal sha256HexChars dominantCat secondaryCat suppressResult in
/-- C10. The suppression decision re-reads the same digest segment (hex
positions [38,40)) at every loop iteration, so one coin flip is shared by
all categories: the suppressed list is empty when that value is odd, and
otherwise is exactly the first `1 + (segment [36,38) mod 2)` categories in
the fixed order that are neither the dominant nor the secondary category. -/
theorem claim_C10_single_flip (id : List Nat) :
    (generate_client_profile id).suppressed =
      if hexSeg (sha256HexChars id) 38 40 % 2 = 0 then
        firstEligible (generate_client_profile id).dominant
          (generate_client_profile id).secondary
          (1 + hexSeg (sha256HexChars id) 36 38 % 2)
      else [] := by
  have hsup : (generate_client_profile id).suppressed =
      suppressedList (sha256HexChars id) := rfl
  have hd : (generate_client_profile id).dominant =
      dominantCat (sha256HexChars id) := rfl
  have hs : (generate_client_profile id).secondary =
      secondaryCat (sha256HexChars id) := rfl
  rw [hsup, hd, hs]
  exact suppressedList_closed_form _


/-! ## Lemmas for the DGA synthesizer -/

/-- Lowercase letters are alphanumeric. -/
theorem lower_alnum : ∀ c ∈ asciiLowercase, c.isAlphanum = true := by decide

/-- Lowercase letters and digits are alphanumeric. -/
theorem lowerDigits_alnum :
    ∀ c ∈ asciiLowercase ++ digitChars, c.isAlphanum = true := by decide

/-- Lowercase hex characters are alphanumeric. -/
theorem hex_alnum : ∀ c ∈ hexChars, c.isAlphanum = true := by decide

/-- Digit characters are alphanumeric. -/
theorem digitChars_alnum : ∀ c ∈ digitChars, c.isAlphanum = true := by decide

/-- Consonants of the medium alphabet are alphanumeric. -/
theorem consonant_alnum : ∀ c ∈ consonantChars, c.isAlphanum = true := by decide

/-- Vowels of the medium alphabet are alphanumeric. -/
theorem vowel_alnum : ∀ c ∈ vowelChars, c.isAlphanum = true := by decide

/-- Lowercasing a letter or digit yields an alphanumeric character. -/
theorem lowerChar_alnum :
    ∀ c ∈ asciiLetters ++ digitChars, (lowerChar c).isAlphanum = true := by
  decide

/-- A decimal digit character is alphanumeric. -/
theorem digit_char_alnum (d : Nat) (hd : d < 10) :
    (Char.ofNat (48 + d)).isAlphanum = true := by
  interval_cases d <;> decide

/-- Every character of `str(n)` for `n ≤ 999` is alphanumeric. -/
theorem decimalStr_alnum (n : Nat) (hn : n ≤ 999) :
    ∀ c ∈ decimalStr n, c.isAlphanum = true := by
  intro c hc
  unfold decimalStr at hc
  by_cases h1 : n < 10
  · rw [if_pos h1] at hc
    rcases List.mem_singleton.mp hc with rfl
    exact digit_char_alnum n h1
  · rw [if_neg h1] at hc
    by_cases h2 : n < 100
    · rw [if_pos h2] at hc
      simp only [List.mem_cons, List.not_mem_nil, or_false] at hc
      rcases hc with rfl | rfl
      · exact digit_char_alnum (n / 10) (by omega)
      · exact digit_char_alnum (n % 10) (by omega)
    · rw [if_neg h2] at hc
      simp only [List.mem_cons, List.not_mem_nil, or_false] at hc
      rcases hc with rfl | rfl | rfl
      · exact digit_char_alnum (n / 100) (by omega)
      · exact digit_char_alnum (n / 10 % 10) (by omega)
      · exact digit_char_alnum (n % 10) (by omega)

/-- Every character of a consonant/vowel-alternating list is alphanumeric. -/
theorem altOk_alnum :
    ∀ (l : List Char) (i : Nat), altOk i l = true →
      ∀ c ∈ l, c.isAlphanum = true := by
  intro l
  induction l with
  | nil => intro i _ c hc; cases hc
  | cons a rest ih =>
      intro i hok c hc
      unfold altOk at hok
      rw [Bool.and_eq_true] at hok
      rcases List.mem_cons.mp hc with rfl | hc
      · have hmem := of_decide_eq_true hok.1
        by_cases hi : i % 2 = 0
        · rw [if_pos hi] at hmem
          exact consonant_alnum c hmem
        · rw [if_neg hi] at hmem
          exact vowel_alnum c hmem
      · exact ih (i + 1) hok.2 c hc

/-- C8. For every possible outcome of the random source: with complexity
`"low"` the output is an 8-12 character lowercase alphabetic label followed
by one of the ten fixed TLDs; with complexity `"medium"` or `"high"` the
output is a non-empty alphanumeric label followed by one of the ten fixed
TLDs. -/
theorem claim_C8_dga_shapes (r : DgaRand) (hr : r.Valid) :
    (∃ nm, generate_dga_domain "low" r = nm ++ r.tld ∧ r.tld ∈ DGA_TLDS ∧
      8 ≤ nm.length ∧ nm.length ≤ 12 ∧ ∀ c ∈ nm, c ∈ asciiLowercase) ∧
    (∃ nm, generate_dga_domain "medium" r = nm ++ r.tld ∧ r.tld ∈ DGA_TLDS ∧
      nm ≠ [] ∧ ∀ c ∈ nm, c.isAlphanum = true) ∧
    (∃ nm, generate_dga_domain "high" r = nm ++ r.tld ∧ r.tld ∈ DGA_TLDS ∧
      nm ≠ [] ∧ ∀ c ∈ nm, c.isAlphanum = true) := by
  obtain ⟨⟨hl1, hl2⟩, ⟨hl3, hl4⟩, hp4, ⟨h01, h02⟩, ⟨h03, h04⟩, ⟨hm1, hm2⟩,
    ⟨h11, h12⟩, ⟨h21, h22, h23⟩, ⟨h31, h32⟩, ⟨h33, h34⟩, ⟨hd1, hd2⟩,
    ⟨hd3, hd4⟩, ⟨hc1, hc2⟩, hnum, ⟨hc3, hc4⟩, htld⟩ := hr
  refine ⟨⟨r.lowChoices, rfl, htld, ?_, ?_, hl4⟩, ?_, ?_⟩
  · omega
  · omega
  · -- medium branch
    by_cases hms : r.medSplice
    · refine ⟨r.medChars.take r.medCut1 ++ decimalStr r.medNum ++
        r.medChars.drop r.medCut2, by simp [generate_dga_domain, hms], htld,
        ?_, ?_⟩
      · intro hemp
        have hlen := congrArg List.length hemp
        simp only [List.length_append, List.length_take, List.length_drop,
          List.length_nil] at hlen
        omega
      · intro c hc
        rcases List.mem_append.mp hc with hc | hc
        · rcases List.mem_append.mp hc with hc | hc
          · have hcm := List.take_subset _ _ hc
            exact altOk_alnum r.medChars 0 hd4 c hcm
          · exact decimalStr_alnum r.medNum hnum c hc
        · have hcm := List.drop_subset _ _ hc
          exact altOk_alnum r.medChars 0 hd4 c hcm
    · refine ⟨r.medChars, by simp [generate_dga_domain, hms], htld, ?_, ?_⟩
      · intro hemp
        have hlen := congrArg List.length hemp
        simp only [List.length_nil] at hlen
        omega
      · exact altOk_alnum r.medChars 0 hd4
  · -- high branch
    rcases hp : r.highPattern with _ | _ | _ | n
    · refine ⟨r.hpChars0, by simp [generate_dga_domain, hp], htld, ?_, ?_⟩
      · intro hemp
        have hlen := congrArg List.length hemp
        simp only [List.length_nil] at hlen
        omega
      · intro c hc
        exact lowerDigits_alnum c (h04 c hc)
    · refine ⟨r.md5Hex.take r.hpLen1, by simp [generate_dga_domain, hp],
        htld, ?_, ?_⟩
      · intro hemp
        have hlen := congrArg List.length hemp
        simp only [List.length_take, List.length_nil, hm1] at hlen
        omega
      · intro c hc
        exact hex_alnum c (hm2 c (List.take_subset _ _ hc))
    · refine ⟨(r.hpPairs.map fun p => [p.1, p.2]).flatten,
        by simp [generate_dga_domain, hp], htld, ?_, ?_⟩
      · intro hemp
        rcases hpp : r.hpPairs with _ | ⟨p, rest⟩
        · rw [hpp] at h21
          simp at h21
        · rw [hpp] at hemp
          simp at hemp
      · intro c hc
        obtain ⟨l, hl, hcl⟩ := List.mem_flatten.mp hc
        obtain ⟨p, hp', rfl⟩ := List.mem_map.mp hl
        simp only [List.mem_cons, List.not_mem_nil, or_false] at hcl
        rcases hcl with rfl | rfl
        · exact lower_alnum p.1 ((h23 p hp').1)
        · exact digitChars_alnum p.2 ((h23 p hp').2)
    · rw [hp] at hp4
      have hn0 : n = 0 := by omega
      subst hn0
      refine ⟨base64_like_string r.b64Chars,
        by simp [generate_dga_domain, hp, base64_like_string], htld, ?_, ?_⟩
      · intro hemp
        have hlen := congrArg List.length hemp
        simp only [base64_like_string, List.length_map, List.length_nil] at hlen
        omega
      · intro c hc
        obtain ⟨x, hx, rfl⟩ := List.mem_map.mp hc
        exact lowerChar_alnum x (h34 x hx)

/-- A concrete outcome record for the random source, used to witness C8. -/
def dgaRandSample : DgaRand where
  lowLen := 8
  lowChoices := "abcdefgh".toList
  highPattern := 0
  hpLen0 := 10
  hpChars0 := "abcde01234".toList
  md5Hex := "0123456789abcdef0123456789abcdef".toList
  hpLen1 := 12
  hpPairs := [('a', '0'), ('b', '1'), ('c', '2'), ('d', '3'), ('e', '4'), ('f', '5')]
  b64Len := 12
  b64Chars := "AbCdEfGh1234".toList
  medLen := 10
  medChars := "bababababa".toList
  medSplice := false
  medCut1 := 3
  medNum := 0
  medCut2 := 6
  tld := ".com".toList

/-- Witness for C8 at a concrete valid outcome of the random source. -/
theorem claim_C8_witness :
    dgaRandSample.Valid ∧
    ((∃ nm, generate_dga_domain "low" dgaRandSample = nm ++ dgaRandSample.tld ∧
        dgaRandSample.tld ∈ DGA_TLDS ∧ 8 ≤ nm.length ∧ nm.length ≤ 12 ∧
        ∀ c ∈ nm, c ∈ asciiLowercase) ∧
     (∃ nm, generate_dga_domain "medium" dgaRandSample = nm ++ dgaRandSample.tld ∧
        dgaRandSample.tld ∈ DGA_TLDS ∧ nm ≠ [] ∧ ∀ c ∈ nm, c.isAlphanum = true) ∧
     (∃ nm, generate_dga_domain "high" dgaRandSample = nm ++ dgaRandSample.tld ∧
        dgaRandSample.tld ∈ DGA_TLDS ∧ nm ≠ [] ∧ ∀ c ∈ nm, c.isAlphanum = true)) :=
  ⟨by decide, claim_C8_dga_shapes dgaRandSample (by decide)⟩

end DnsSim
